import Mathlib

/-!
Verification of the in-memory helpdesk ticket tracker (`ticketing.py`).

The domain model and the store operations are embedded shallowly:
mutation of the store becomes explicit state passing, the clock read
(`datetime.utcnow()`) becomes an explicit `now : DateTime` argument, and
the two `ValueError` raise sites become the two constructors of `Err`.
-/

/-- Python `str.strip()`: drop leading and trailing whitespace. -/
def String.strip (s : String) : String :=
  String.mk
    (((s.data.dropWhile Char.isWhitespace).reverse.dropWhile
      Char.isWhitespace).reverse)

/-- `Status` enumeration: `OPEN = "Open"`, `RESOLVED = "Resolved"`. -/
inductive Status where
  | OPEN
  | RESOLVED
deriving DecidableEq, Repr

/-- `Priority` enumeration: `LOW`, `MEDIUM`, `HIGH`. -/
inductive Priority where
  | LOW
  | MEDIUM
  | HIGH
deriving DecidableEq, Repr

/-- A calendar timestamp, standing for Python `datetime`. -/
structure DateTime where
  year : Nat
  month : Nat
  day : Nat
  hour : Nat
  minute : Nat
  second : Nat
deriving DecidableEq, Repr

/-- The two `ValueError` raise sites of `ticketing.py`, kept apart by
their messages: the not-found error of `resolve_ticket` and the blank
resolution error of `Ticket.resolve`. -/
inductive Err where
  | notFound (msg : String)
  | validation (msg : String)
deriving DecidableEq, Repr

deriving instance DecidableEq for Except

/-- The `Ticket` dataclass. -/
structure Ticket where
  id : Nat
  requester : String
  contact : String
  subject : String
  description : String
  priority : Priority
  status : Status := Status.OPEN
  created_at : DateTime
  resolution : Option String := none
  resolved_at : Option DateTime := none
deriving DecidableEq, Repr

/-- `Ticket.resolve(self, resolution)`: rejects a resolution that is
blank after stripping, otherwise sets status, trimmed resolution text
and the resolution timestamp.  The clock read becomes the `now`
argument; the in-place mutation becomes the returned updated ticket. -/
def Ticket.resolve (t : Ticket) (resolution : String) (now : DateTime) :
    Except Err Ticket :=
  if resolution.strip.isEmpty then
    Except.error (Err.validation "Resolution cannot be empty")
  else
    Except.ok { t with
      status := Status.RESOLVED
      resolution := some resolution.strip
      resolved_at := some now }

/-- The `TicketStore` fields: the ordered ticket list `_tickets` and the
counter `_next_id`. -/
structure TicketStore where
  tickets_ : List Ticket
  next_id_ : Nat
deriving DecidableEq, Repr

/-- `TicketStore._compute_next_id`: 1 for an empty list, otherwise the
maximum existing id plus one (`max(...)` over a non-empty sequence is
the left fold of `Nat.max` seeded with the first element). -/
def compute_next_id : List Ticket → Nat
  | [] => 1
  | t :: rest => (rest.foldl (fun acc u => Nat.max acc u.id) t.id) + 1

/-- `TicketStore.__init__(self, tickets=None)`: `list(tickets) if tickets
else []` — an absent or empty (falsy) seed yields the empty list — then
`_next_id = _compute_next_id()`. -/
def TicketStore.init (tickets : Option (List Ticket)) : TicketStore :=
  let ts : List Ticket :=
    match tickets with
    | none => []
    | some l => if l.isEmpty then [] else l
  { tickets_ := ts, next_id_ := compute_next_id ts }

/-- The `tickets` property: `list(self._tickets)` (a shallow copy; in
the pure embedding, the list itself). -/
def TicketStore.tickets (s : TicketStore) : List Ticket :=
  s.tickets_

/-- `TicketStore.create_ticket`: builds a ticket with the stripped text
fields, the current `_next_id` and `status = OPEN`, appends it, and
increments the counter.  Returns the new store and the ticket. -/
def TicketStore.create_ticket (s : TicketStore)
    (requester contact subject description : String)
    (priority : Priority) (now : DateTime) : TicketStore × Ticket :=
  let ticket : Ticket :=
    { id := s.next_id_
      requester := requester.strip
      contact := contact.strip
      subject := subject.strip
      description := description.strip
      priority := priority
      status := Status.OPEN
      created_at := now
      resolution := none
      resolved_at := none }
  ({ tickets_ := s.tickets_ ++ [ticket], next_id_ := s.next_id_ + 1 }, ticket)

/-- `TicketStore.get_ticket`: first ticket whose id matches, else
`None`. -/
def TicketStore.get_ticket (s : TicketStore) (ticket_id : Nat) : Option Ticket :=
  s.tickets_.find? (fun t => t.id == ticket_id)

/-- Replace the first ticket in the list whose id matches; models the
in-place mutation of the found object by `Ticket.resolve`. -/
def replaceFirst : List Ticket → Nat → Ticket → List Ticket
  | [], _, _ => []
  | u :: rest, i, t => if u.id == i then t :: rest else u :: replaceFirst rest i t

/-- `TicketStore.resolve_ticket`: looks the id up, raises not-found when
absent, otherwise delegates to `Ticket.resolve` and returns the mutated
ticket.  The store component of the result is the store as the call
leaves it (unchanged on either error path, since the Python code raises
before assigning anything). -/
def TicketStore.resolve_ticket (s : TicketStore) (ticket_id : Nat)
    (resolution : String) (now : DateTime) :
    TicketStore × Except Err Ticket :=
  match s.get_ticket ticket_id with
  | none =>
      (s, Except.error (Err.notFound
        ("Ticket " ++ toString ticket_id ++ " not found")))
  | some t =>
      match t.resolve resolution now with
      | Except.error e => (s, Except.error e)
      | Except.ok t' =>
          ({ s with tickets_ := replaceFirst s.tickets_ ticket_id t' },
           Except.ok t')

/-- `TicketStore.filter_tickets(status=None, priority=None)`: list
comprehension keeping tickets that pass both optional checks. -/
def TicketStore.filter_tickets (s : TicketStore)
    (status : Option Status) (priority : Option Priority) : List Ticket :=
  s.tickets_.filter (fun t =>
    (match status with
     | none => true
     | some st => t.status == st)
    &&
    (match priority with
     | none => true
     | some p => t.priority == p))

/-- `TicketStore.stats`: `(total, open_count, resolved_count)` with
`resolved_count = total - open_count`. -/
def TicketStore.stats (s : TicketStore) : Nat × Nat × Nat :=
  let total := s.tickets_.length
  let open_count := (s.tickets_.filter (fun t => t.status == Status.OPEN)).length
  (total, open_count, total - open_count)

/-- Left-pad the decimal rendering of `n` with zeros to `width`
characters, as Python `strftime` does for its numeric directives. -/
def padNum (width : Nat) (n : Nat) : String :=
  let s := toString n
  String.mk (List.replicate (width - s.length) '0') ++ s

/-- `timestamp.strftime("%Y-%m-%d %H:%M UTC")`. -/
def DateTime.strftimeDisplay (d : DateTime) : String :=
  padNum 4 d.year ++ "-" ++ padNum 2 d.month ++ "-" ++ padNum 2 d.day
    ++ " " ++ padNum 2 d.hour ++ ":" ++ padNum 2 d.minute ++ " UTC"

/-- `format_timestamp`: the source file's literal for the absent case is
the three-character string `"â€”"` (U+00E2 U+20AC U+201D, an em-dash
mis-decoded at some point), not the em-dash itself. -/
def format_timestamp : Option DateTime → String
  | none => "â€”"
  | some t => t.strftimeDisplay

/-- The argument bundle of one `create_ticket` call (the clock value the
call observes included). -/
structure CreateArgs where
  requester : String
  contact : String
  subject : String
  description : String
  priority : Priority
  now : DateTime
deriving DecidableEq, Repr

/-- Run one `create_ticket` call from an argument bundle. -/
def applyCreate (s : TicketStore) (a : CreateArgs) : TicketStore × Ticket :=
  s.create_ticket a.requester a.contact a.subject a.description a.priority a.now

/-- Run a sequence of `create_ticket` calls, collecting the returned ids
in call order. -/
def runCreates : TicketStore → List CreateArgs → List Nat
  | _, [] => []
  | s, a :: rest =>
      let p := applyCreate s a
      p.2.id :: runCreates p.1 rest

/-- A mutating store operation: one `create_ticket` or one
`resolve_ticket` call. -/
inductive Op where
  | create (a : CreateArgs)
  | resolveOp (ticket_id : Nat) (resolution : String) (now : DateTime)
deriving DecidableEq, Repr

/-- Apply one operation to the store; a raising `resolve_ticket` leaves
the store as the call left it (its store component). -/
def applyOp (s : TicketStore) : Op → TicketStore
  | Op.create a => (applyCreate s a).1
  | Op.resolveOp i text now => (s.resolve_ticket i text now).1

/-- Run a sequence of store operations. -/
def runOps (s : TicketStore) (ops : List Op) : TicketStore :=
  ops.foldl applyOp s

/-- `true` exactly on `create` operations. -/
def Op.isCreate : Op → Bool
  | Op.create _ => true
  | Op.resolveOp _ _ _ => false

/-- Number of `create_ticket` calls in an operation sequence (every one
of them succeeds). -/
def countCreates (ops : List Op) : Nat :=
  (ops.filter Op.isCreate).length

/-- The result of a read-only store operation. -/
inductive QueryResult where
  | one (t : Option Ticket)
  | many (ts : List Ticket)
  | counts (c : Nat × Nat × Nat)
deriving DecidableEq, Repr

/-- A read-only store operation: `get_ticket`, `filter_tickets`,
`stats`, or the `tickets` property. -/
inductive Query where
  | get (ticket_id : Nat)
  | filterQ (status : Option Status) (priority : Option Priority)
  | statsQ
  | ticketsQ
deriving DecidableEq, Repr

/-- State-passing form of the four read-only operations; each method
body of `ticketing.py` assigns to no attribute of the store, so the
translation returns the store it was given. -/
def TicketStore.runQuery (s : TicketStore) : Query → TicketStore × QueryResult
  | Query.get i => (s, QueryResult.one (s.get_ticket i))
  | Query.filterQ st p => (s, QueryResult.many (s.filter_tickets st p))
  | Query.statsQ => (s, QueryResult.counts s.stats)
  | Query.ticketsQ => (s, QueryResult.many s.tickets)

/-- Spec-side filter predicate, from the spec's words: a ticket matches
when every provided filter agrees with it, and an absent filter matches
every ticket. -/
def MatchesSpec (st : Option Status) (p : Option Priority) (t : Ticket) : Prop :=
  (st = none ∨ st = some t.status) ∧ (p = none ∨ p = some t.priority)

instance (st : Option Status) (p : Option Priority) (t : Ticket) :
    Decidable (MatchesSpec st p t) := by
  unfold MatchesSpec; infer_instance

/-- The spec's ticket-state invariant: `resolution` and `resolved_at`
are both absent or both present, and present exactly when the status is
`RESOLVED`. -/
def TicketInv (t : Ticket) : Prop :=
  (t.resolution.isSome ↔ t.status = Status.RESOLVED)
  ∧ (t.resolved_at.isSome ↔ t.status = Status.RESOLVED)

/-- A fixed clock value used by concrete witnesses. -/
def sampleNow : DateTime :=
  { year := 2024, month := 1, day := 1, hour := 12, minute := 0, second := 0 }

/-- A concrete `create_ticket` argument bundle used by witnesses. -/
def sampleArgs : CreateArgs :=
  { requester := " Alice "
    contact := " alice@example.com "
    subject := " Laptop issue "
    description := " Wont start "
    priority := Priority.HIGH
    now := sampleNow }

/-- A concrete seed ticket with id 5, used by witnesses. -/
def sampleTicket5 : Ticket :=
  { id := 5
    requester := "Bob"
    contact := "bob@example.com"
    subject := "Email problem"
    description := "Cannot send"
    priority := Priority.MEDIUM
    status := Status.OPEN
    created_at := sampleNow
    resolution := none
    resolved_at := none }

lemma le_foldl_max_init (l : List Ticket) (init : Nat) :
    init ≤ l.foldl (fun acc u => Nat.max acc u.id) init := by
  induction l generalizing init with
  | nil => exact Nat.le_refl _
  | cons u rest ih => exact Nat.le_trans (Nat.le_max_left _ _) (ih _)

lemma le_foldl_max_mem {l : List Ticket} {u : Ticket} (hu : u ∈ l) (init : Nat) :
    u.id ≤ l.foldl (fun acc v => Nat.max acc v.id) init := by
  induction l generalizing init with
  | nil => cases hu
  | cons v rest ih =>
      rcases List.mem_cons.mp hu with h | h
      · subst h
        exact Nat.le_trans (Nat.le_max_right _ _) (le_foldl_max_init _ _)
      · exact ih h _

lemma foldl_max_le {l : List Ticket} {k : Nat} {init : Nat} (hinit : init ≤ k)
    (h : ∀ u ∈ l, u.id ≤ k) :
    l.foldl (fun acc v => Nat.max acc v.id) init ≤ k := by
  induction l generalizing init with
  | nil => exact hinit
  | cons v rest ih =>
      exact ih (Nat.max_le.mpr ⟨hinit, h v (List.mem_cons_self _ _)⟩)
        (fun u hu => h u (List.mem_cons_of_mem _ hu))

lemma compute_next_id_eq_max {seed : List Ticket} {k : Nat}
    (hmem : ∃ u ∈ seed, u.id = k) (hub : ∀ u ∈ seed, u.id ≤ k) :
    compute_next_id seed = k + 1 := by
  match seed with
  | [] =>
      rcases hmem with ⟨u, hu, _⟩
      cases hu
  | t :: rest =>
      show (rest.foldl (fun acc u => Nat.max acc u.id) t.id) + 1 = k + 1
      congr 1
      apply Nat.le_antisymm
      · exact foldl_max_le (hub t (List.mem_cons_self _ _))
          (fun u hu => hub u (List.mem_cons_of_mem _ hu))
      · rcases hmem with ⟨u, hu, hk⟩
        subst hk
        rcases List.mem_cons.mp hu with h | h
        · subst h
          exact le_foldl_max_init _ _
        · exact le_foldl_max_mem h _

lemma runCreates_ids (args : List CreateArgs) :
    ∀ s : TicketStore, runCreates s args = List.range' s.next_id_ args.length := by
  induction args with
  | nil => intro _; rfl
  | cons a rest ih =>
      intro s
      show (applyCreate s a).2.id :: runCreates (applyCreate s a).1 rest
        = List.range' s.next_id_ (rest.length + 1)
      rw [ih, List.range'_succ]
      rfl

/-- C1: on a store constructed empty, a sequence of `create_ticket`
calls returns exactly the ids 1, 2, 3, … in call order; on a store
seeded with a sequence whose maximum ticket id is `k`, the first
`create_ticket` call returns id `k + 1`; with an absent or empty seed
the first call returns 1. -/
theorem c1_id_assignment :
    (∀ args : List CreateArgs,
        runCreates (TicketStore.init none) args = List.range' 1 args.length)
    ∧ (∀ (seed : List Ticket) (k : Nat) (a : CreateArgs),
        (∃ u ∈ seed, u.id = k) → (∀ u ∈ seed, u.id ≤ k) →
        (applyCreate (TicketStore.init (some seed)) a).2.id = k + 1)
    ∧ (∀ a : CreateArgs,
        (applyCreate (TicketStore.init none) a).2.id = 1
        ∧ (applyCreate (TicketStore.init (some [])) a).2.id = 1) := by
  refine ⟨fun args => ?_, fun seed k a hmem hub => ?_, fun a => ⟨rfl, rfl⟩⟩
  · rw [runCreates_ids]
    rfl
  · show (TicketStore.init (some seed)).next_id_ = k + 1
    match seed, hmem with
    | [], ⟨u, hu, _⟩ => cases hu
    | t :: rest, hmem =>
        show compute_next_id (if (t :: rest).isEmpty then [] else t :: rest) = k + 1
        simp only [List.isEmpty_cons, if_neg Bool.false_ne_true]
        exact compute_next_id_eq_max hmem hub

/-- Witness for C1 at concrete inputs. -/
theorem c1_id_assignment_witness :
    runCreates (TicketStore.init none) [sampleArgs, sampleArgs, sampleArgs]
      = [1, 2, 3]
    ∧ (applyCreate (TicketStore.init (some [sampleTicket5])) sampleArgs).2.id
      = 5 + 1 := by
  constructor
  · rw [c1_id_assignment.1 [sampleArgs, sampleArgs, sampleArgs]]
    decide
  · exact c1_id_assignment.2.1 [sampleTicket5] 5 sampleArgs
      ⟨sampleTicket5, List.mem_singleton_self _, rfl⟩
      (by
        intro u hu
        rw [List.mem_singleton.mp hu]
        exact Nat.le_refl 5)

lemma get_ticket_eq_none_iff (s : TicketStore) (i : Nat) :
    s.get_ticket i = none ↔ ∀ t ∈ s.tickets_, t.id ≠ i := by
  unfold TicketStore.get_ticket
  rw [List.find?_eq_none]
  simp

lemma get_ticket_isSome_iff (s : TicketStore) (i : Nat) :
    (s.get_ticket i).isSome ↔ ∃ t ∈ s.tickets_, t.id = i := by
  unfold TicketStore.get_ticket
  rw [List.find?_isSome]
  simp

lemma get_ticket_id {s : TicketStore} {i : Nat} {t : Ticket}
    (h : s.get_ticket i = some t) : t.id = i := by
  have := List.find?_some h
  simpa using this

lemma mem_of_get_ticket {s : TicketStore} {i : Nat} {t : Ticket}
    (h : s.get_ticket i = some t) : t ∈ s.tickets_ :=
  List.mem_of_find?_eq_some h

/-- C2: `resolve_ticket` raises the not-found error exactly when no
ticket with the requested id is in the store; it raises the blank-
resolution error exactly when such a ticket exists and the resolution
text strips to empty; it succeeds in every other case.  When the id is
absent and the text is also blank, the not-found error wins, since the
lookup happens first. -/
theorem c2_resolve_failure_iff (s : TicketStore) (i : Nat) (text : String)
    (now : DateTime) :
    ((s.resolve_ticket i text now).2
        = Except.error (Err.notFound ("Ticket " ++ toString i ++ " not found"))
      ↔ ∀ t ∈ s.tickets_, t.id ≠ i)
    ∧ ((s.resolve_ticket i text now).2
        = Except.error (Err.validation "Resolution cannot be empty")
      ↔ (∃ t ∈ s.tickets_, t.id = i) ∧ text.strip = "")
    ∧ ((∃ t', (s.resolve_ticket i text now).2 = Except.ok t')
      ↔ (∃ t ∈ s.tickets_, t.id = i) ∧ text.strip ≠ "") := by
  rcases hget : s.get_ticket i with _ | t
  · have habsent : ∀ t ∈ s.tickets_, t.id ≠ i :=
      (get_ticket_eq_none_iff s i).mp hget
    have hnomem : ¬ ∃ t ∈ s.tickets_, t.id = i := by
      rw [← get_ticket_isSome_iff, hget]
      simp
    have hres : (s.resolve_ticket i text now).2
        = Except.error (Err.notFound ("Ticket " ++ toString i ++ " not found")) := by
      simp [TicketStore.resolve_ticket, hget]
    refine ⟨?_, ?_, ?_⟩
    · rw [hres]
      exact ⟨fun _ => habsent, fun _ => rfl⟩
    · rw [hres]
      constructor
      · intro h
        simp at h
      · intro h
        exact absurd h.1 hnomem
    · rw [hres]
      constructor
      · rintro ⟨t', ht'⟩
        simp at ht'
      · intro h
        exact absurd h.1 hnomem
  · have hmem : ∃ u ∈ s.tickets_, u.id = i := by
      rw [← get_ticket_isSome_iff, hget]
      simp
    have hfalse1 : ¬ ∀ u ∈ s.tickets_, u.id ≠ i := by
      intro h
      rcases hmem with ⟨u, hu, hui⟩
      exact absurd hui (h u hu)
    by_cases hblank : text.strip.isEmpty
    · have hempty : text.strip = "" := (String.isEmpty_iff _).mp hblank
      have hres : (s.resolve_ticket i text now).2
          = Except.error (Err.validation "Resolution cannot be empty") := by
        simp [TicketStore.resolve_ticket, hget, Ticket.resolve, hblank]
      refine ⟨?_, ?_, ?_⟩
      · rw [hres]
        constructor
        · intro h
          simp at h
        · intro h
          exact absurd h hfalse1
      · rw [hres]
        exact ⟨fun _ => ⟨hmem, hempty⟩, fun _ => rfl⟩
      · rw [hres]
        constructor
        · rintro ⟨t', ht'⟩
          simp at ht'
        · rintro ⟨-, hne⟩
          exact absurd hempty hne
    · have hne : text.strip ≠ "" := fun h =>
        hblank ((String.isEmpty_iff _).mpr h)
      have hres : (s.resolve_ticket i text now).2
          = Except.ok { t with
              status := Status.RESOLVED
              resolution := some text.strip
              resolved_at := some now } := by
        simp [TicketStore.resolve_ticket, hget, Ticket.resolve, hblank]
      refine ⟨?_, ?_, ?_⟩
      · rw [hres]
        constructor
        · intro h
          simp at h
        · intro h
          exact absurd h hfalse1
      · rw [hres]
        constructor
        · intro h
          simp at h
        · rintro ⟨-, heq⟩
          exact absurd heq hne
      · rw [hres]
        exact ⟨fun _ => ⟨hmem, hne⟩, fun _ => ⟨_, rfl⟩⟩

/-- Witness for C2 at concrete inputs: on a store holding only the
sample ticket with id 5, resolving id 9 reports not-found, resolving
id 5 with blank text reports the validation error, and resolving id 5
with real text succeeds. -/
theorem c2_resolve_failure_iff_witness :
    (((TicketStore.init (some [sampleTicket5])).resolve_ticket 9 "x" sampleNow).2
      = Except.error (Err.notFound "Ticket 9 not found"))
    ∧ (((TicketStore.init (some [sampleTicket5])).resolve_ticket 5 "   " sampleNow).2
      = Except.error (Err.validation "Resolution cannot be empty"))
    ∧ (∃ t', ((TicketStore.init (some [sampleTicket5])).resolve_ticket 5 "Done" sampleNow).2
      = Except.ok t') := by
  refine ⟨?_, ?_, ?_⟩
  · exact (c2_resolve_failure_iff (TicketStore.init (some [sampleTicket5]))
      9 "x" sampleNow).1.mpr (by decide)
  · exact (c2_resolve_failure_iff (TicketStore.init (some [sampleTicket5]))
      5 "   " sampleNow).2.1.mpr (by decide)
  · exact (c2_resolve_failure_iff (TicketStore.init (some [sampleTicket5]))
      5 "Done" sampleNow).2.2.mpr (by decide)

/-- C3: whenever `resolve_ticket` raises — unknown id, or resolution
blank after stripping — the store it leaves behind is equal, field for
field (ticket sequence, every ticket, next-id counter), to the store
before the call. -/
theorem c3_atomicity_on_failure (s : TicketStore) (i : Nat) (text : String)
    (now : DateTime) (e : Err)
    (h : (s.resolve_ticket i text now).2 = Except.error e) :
    (s.resolve_ticket i text now).1 = s := by
  rcases hget : s.get_ticket i with _ | t
  · simp [TicketStore.resolve_ticket, hget]
  · rcases hres : t.resolve text now with e' | t'
    · simp [TicketStore.resolve_ticket, hget, hres]
    · have : (s.resolve_ticket i text now).2 = Except.ok t' := by
        simp [TicketStore.resolve_ticket, hget, hres]
      rw [this] at h
      cases h

/-- Witness for C3: resolving an id on the empty store raises, and the
store is unchanged. -/
theorem c3_atomicity_on_failure_witness :
    ((TicketStore.init none).resolve_ticket 1 "x" sampleNow).1
      = TicketStore.init none :=
  c3_atomicity_on_failure (TicketStore.init none) 1 "x" sampleNow
    (Err.notFound "Ticket 1 not found") (by decide)

lemma find_split {l : List Ticket} {i : Nat} {t : Ticket}
    (h : l.find? (fun u => u.id == i) = some t) :
    ∃ pre post, l = pre ++ t :: post ∧ ∀ u ∈ pre, u.id ≠ i := by
  induction l with
  | nil => cases h
  | cons v rest ih =>
      by_cases hv : v.id = i
      · rw [List.find?_cons_of_pos _ (by simp [hv])] at h
        cases h
        exact ⟨[], rest, rfl, by simp⟩
      · rw [List.find?_cons_of_neg _ (by simp [hv])] at h
        rcases ih h with ⟨pre, post, heq, hpre⟩
        refine ⟨v :: pre, post, by rw [heq]; rfl, ?_⟩
        intro u hu
        rcases List.mem_cons.mp hu with h1 | h1
        · rw [h1]
          exact hv
        · exact hpre u h1

lemma replaceFirst_append {pre post : List Ticket} {i : Nat} {t t' : Ticket}
    (hpre : ∀ u ∈ pre, u.id ≠ i) (ht : t.id = i) :
    replaceFirst (pre ++ t :: post) i t' = pre ++ t' :: post := by
  induction pre with
  | nil => simp [replaceFirst, ht]
  | cons v rest ih =>
      have hv : (v.id == i) = false := by
        simp [hpre v (List.mem_cons_self _ _)]
      show (if (v.id == i) = true then _ else _) = _
      rw [hv]
      simp only [Bool.false_eq_true, if_false, List.cons_append]
      exact congrArg (v :: ·)
        (ih (fun u hu => hpre u (List.mem_cons_of_mem _ hu)))

lemma find?_append_cons {pre post : List Ticket} {i : Nat} {t' : Ticket}
    (hpre : ∀ u ∈ pre, u.id ≠ i) (ht' : t'.id = i) :
    (pre ++ t' :: post).find? (fun u => u.id == i) = some t' := by
  induction pre with
  | nil => exact List.find?_cons_of_pos _ (by simp [ht'])
  | cons v rest ih =>
      rw [List.cons_append,
        List.find?_cons_of_neg _ (by simp [hpre v (List.mem_cons_self _ _)])]
      exact ih (fun u hu => hpre u (List.mem_cons_of_mem _ hu))

/-- C4: resolving an Open ticket with text that is non-empty after
stripping succeeds, sets exactly status / resolution / resolved-at on
the store's own entry (every other field and every other ticket
untouched, counter untouched), and the returned ticket is the one now
in the store. -/
theorem c4_resolve_success (s : TicketStore) (i : Nat) (text : String)
    (now : DateTime) (t : Ticket)
    (hget : s.get_ticket i = some t) (_hopen : t.status = Status.OPEN)
    (htext : text.strip ≠ "") :
    ∃ t' pre post,
      (s.resolve_ticket i text now).2 = Except.ok t'
      ∧ t'.status = Status.RESOLVED
      ∧ t'.resolution = some text.strip
      ∧ t'.resolved_at = some now
      ∧ t'.id = t.id ∧ t'.requester = t.requester ∧ t'.contact = t.contact
      ∧ t'.subject = t.subject ∧ t'.description = t.description
      ∧ t'.priority = t.priority ∧ t'.created_at = t.created_at
      ∧ s.tickets_ = pre ++ t :: post
      ∧ (∀ u ∈ pre, u.id ≠ i)
      ∧ (s.resolve_ticket i text now).1.tickets_ = pre ++ t' :: post
      ∧ (s.resolve_ticket i text now).1.next_id_ = s.next_id_
      ∧ (s.resolve_ticket i text now).1.get_ticket i = some t' := by
  have hblank : text.strip.isEmpty = false := by
    cases hb : text.strip.isEmpty
    · rfl
    · exact absurd ((String.isEmpty_iff _).mp hb) htext
  have tid : t.id = i := get_ticket_id hget
  have hfind : s.tickets_.find? (fun u => u.id == i) = some t := hget
  rcases find_split hfind with ⟨pre, post, heq, hpre⟩
  refine ⟨{ t with
      status := Status.RESOLVED
      resolution := some text.strip
      resolved_at := some now }, pre, post, ?_, rfl, rfl, rfl, rfl, rfl, rfl,
    rfl, rfl, rfl, rfl, heq, hpre, ?_, ?_, ?_⟩
  · simp [TicketStore.resolve_ticket, hget, Ticket.resolve, hblank]
  · have h1 : (s.resolve_ticket i text now).1.tickets_
        = replaceFirst s.tickets_ i { t with
            status := Status.RESOLVED
            resolution := some text.strip
            resolved_at := some now } := by
      simp [TicketStore.resolve_ticket, hget, Ticket.resolve, hblank]
    rw [h1, heq, replaceFirst_append hpre tid]
  · simp [TicketStore.resolve_ticket, hget, Ticket.resolve, hblank]
  · have h1 : (s.resolve_ticket i text now).1.tickets_
        = replaceFirst s.tickets_ i { t with
            status := Status.RESOLVED
            resolution := some text.strip
            resolved_at := some now } := by
      simp [TicketStore.resolve_ticket, hget, Ticket.resolve, hblank]
    show (s.resolve_ticket i text now).1.tickets_.find?
      (fun u => u.id == i) = some _
    rw [h1, heq, replaceFirst_append hpre tid]
    exact find?_append_cons hpre tid

/-- Witness for C4: resolving the sample ticket with real text on a
store seeded with it. -/
theorem c4_resolve_success_witness :
    ∃ t' pre post,
      (((TicketStore.init (some [sampleTicket5])).resolve_ticket
          5 "Done" sampleNow).2 = Except.ok t')
      ∧ t'.status = Status.RESOLVED
      ∧ t'.resolution = some ("Done".strip)
      ∧ t'.resolved_at = some sampleNow
      ∧ t'.id = sampleTicket5.id ∧ t'.requester = sampleTicket5.requester
      ∧ t'.contact = sampleTicket5.contact
      ∧ t'.subject = sampleTicket5.subject
      ∧ t'.description = sampleTicket5.description
      ∧ t'.priority = sampleTicket5.priority
      ∧ t'.created_at = sampleTicket5.created_at
      ∧ (TicketStore.init (some [sampleTicket5])).tickets_
          = pre ++ sampleTicket5 :: post
      ∧ (∀ u ∈ pre, u.id ≠ 5)
      ∧ ((TicketStore.init (some [sampleTicket5])).resolve_ticket
          5 "Done" sampleNow).1.tickets_ = pre ++ t' :: post
      ∧ ((TicketStore.init (some [sampleTicket5])).resolve_ticket
          5 "Done" sampleNow).1.next_id_
          = (TicketStore.init (some [sampleTicket5])).next_id_
      ∧ ((TicketStore.init (some [sampleTicket5])).resolve_ticket
          5 "Done" sampleNow).1.get_ticket 5 = some t' :=
  c4_resolve_success (TicketStore.init (some [sampleTicket5])) 5 "Done"
    sampleNow sampleTicket5 (by decide) rfl (by decide)

/-- C5: the formatting of a present timestamp follows the
`YYYY-MM-DD HH:MM UTC` convention, but for an absent timestamp the code
returns the three-character mojibake string `â€”` (U+00E2 U+20AC
U+201D), not the em-dash `—` (U+2014) that the spec — and the
repository's own test — require.  The conjuncts below evaluate the code
at both inputs and separate the two strings. -/
theorem c5_format_timestamp_divergence :
    format_timestamp (some sampleNow) = "2024-01-01 12:00 UTC"
    ∧ format_timestamp none = "â€”"
    ∧ "â€”" ≠ "—" := by
  refine ⟨by decide, rfl, by decide⟩

/-- C6: `create_ticket` always succeeds (it is a total function of the
embedding), appends its ticket to the end of the sequence, strips the
four text fields, keeps the given priority, and starts the ticket Open
with no resolution and no resolution timestamp. -/
theorem c6_create_postcondition (s : TicketStore)
    (requester contact subject description : String) (priority : Priority)
    (now : DateTime) :
    ((s.create_ticket requester contact subject description priority now).1.tickets_
      = s.tickets_
        ++ [(s.create_ticket requester contact subject description priority now).2])
    ∧ (s.create_ticket requester contact subject description priority now).2.requester
      = requester.strip
    ∧ (s.create_ticket requester contact subject description priority now).2.contact
      = contact.strip
    ∧ (s.create_ticket requester contact subject description priority now).2.subject
      = subject.strip
    ∧ (s.create_ticket requester contact subject description priority now).2.description
      = description.strip
    ∧ (s.create_ticket requester contact subject description priority now).2.priority
      = priority
    ∧ (s.create_ticket requester contact subject description priority now).2.status
      = Status.OPEN
    ∧ (s.create_ticket requester contact subject description priority now).2.resolution
      = none
    ∧ (s.create_ticket requester contact subject description priority now).2.resolved_at
      = none
    ∧ (s.create_ticket requester contact subject description priority now).2.created_at
      = now :=
  ⟨rfl, rfl, rfl, rfl, rfl, rfl, rfl, rfl, rfl, rfl⟩

/-- C7: `filter_tickets` returns exactly the tickets that satisfy every
provided filter (an absent filter matches every ticket), keeps the
store's insertion order (it is a sublist of the sequence), and with
both filters absent returns the full sequence. -/
theorem c7_filter_semantics (s : TicketStore) (st : Option Status)
    (p : Option Priority) :
    s.filter_tickets st p
      = s.tickets_.filter (fun t => decide (MatchesSpec st p t))
    ∧ (s.filter_tickets st p).Sublist s.tickets_
    ∧ s.filter_tickets none none = s.tickets_ := by
  refine ⟨?_, List.filter_sublist _, ?_⟩
  · unfold TicketStore.filter_tickets
    apply List.filter_congr
    intro t _
    rw [Bool.eq_iff_iff, decide_eq_true_eq]
    cases st <;> cases p <;> simp [MatchesSpec] <;>
      first
        | exact eq_comm
        | exact and_congr eq_comm eq_comm
  · unfold TicketStore.filter_tickets
    simp

lemma replaceFirst_length (l : List Ticket) (i : Nat) (t : Ticket) :
    (replaceFirst l i t).length = l.length := by
  induction l with
  | nil => rfl
  | cons v rest ih =>
      by_cases hv : (v.id == i) = true
      · simp [replaceFirst, hv]
      · simp [replaceFirst, hv, ih]

lemma resolve_ticket_length (s : TicketStore) (i : Nat) (text : String)
    (now : DateTime) :
    (s.resolve_ticket i text now).1.tickets_.length = s.tickets_.length := by
  rcases hget : s.get_ticket i with _ | t
  · simp [TicketStore.resolve_ticket, hget]
  · rcases hres : t.resolve text now with e | t'
    · simp [TicketStore.resolve_ticket, hget, hres]
    · simp [TicketStore.resolve_ticket, hget, hres, replaceFirst_length]

lemma countCreates_cons (o : Op) (rest : List Op) :
    countCreates (o :: rest)
      = (if o.isCreate then 1 else 0) + countCreates rest := by
  unfold countCreates
  cases h : o.isCreate <;> simp [List.filter_cons, h, Nat.add_comm]

lemma runOps_length (ops : List Op) :
    ∀ s : TicketStore,
      (runOps s ops).tickets_.length = s.tickets_.length + countCreates ops := by
  induction ops with
  | nil =>
      intro s
      simp [runOps, countCreates]
  | cons o rest ih =>
      intro s
      show (runOps (applyOp s o) rest).tickets_.length = _
      rw [ih, countCreates_cons]
      cases o with
      | create a =>
          show ((applyCreate s a).1.tickets_.length) + countCreates rest = _
          simp [applyCreate, TicketStore.create_ticket, Op.isCreate]
          omega
      | resolveOp i text now =>
          show ((s.resolve_ticket i text now).1.tickets_.length)
            + countCreates rest = _
          rw [resolve_ticket_length]
          simp [Op.isCreate]

lemma filter_status_partition (l : List Ticket) :
    (l.filter (fun t => t.status == Status.OPEN)).length
      + (l.filter (fun t => t.status == Status.RESOLVED)).length
      = l.length := by
  induction l with
  | nil => rfl
  | cons t rest ih =>
      cases h : t.status <;> simp [List.filter_cons, h] <;> omega

/-- C8: for every store, `stats` returns
`(total, open count, resolved count)` with `total` the length of the
sequence, the open count the number of Open tickets, the resolved count
the number of Resolved tickets, and `total = open + resolved`; and for
a store constructed empty, `total` equals the number of `create_ticket`
calls performed on it (every such call succeeds, and the store never
deletes). -/
theorem c8_stats_consistency :
    (∀ s : TicketStore,
        s.stats.1 = s.stats.2.1 + s.stats.2.2
        ∧ s.stats.1 = s.tickets_.length
        ∧ s.stats.2.1
          = (s.tickets_.filter (fun t => t.status == Status.OPEN)).length
        ∧ s.stats.2.2
          = (s.tickets_.filter (fun t => t.status == Status.RESOLVED)).length)
    ∧ (∀ ops : List Op,
        (runOps (TicketStore.init none) ops).stats.1 = countCreates ops) := by
  constructor
  · intro s
    have hpart := filter_status_partition s.tickets_
    have hle : (s.tickets_.filter (fun t => t.status == Status.OPEN)).length
        ≤ s.tickets_.length := List.length_filter_le _ _
    refine ⟨?_, rfl, rfl, ?_⟩
    · show s.tickets_.length
        = (s.tickets_.filter (fun t => t.status == Status.OPEN)).length
          + (s.tickets_.length
            - (s.tickets_.filter (fun t => t.status == Status.OPEN)).length)
      omega
    · show s.tickets_.length
        - (s.tickets_.filter (fun t => t.status == Status.OPEN)).length
        = (s.tickets_.filter (fun t => t.status == Status.RESOLVED)).length
      omega
  · intro ops
    show (runOps (TicketStore.init none) ops).tickets_.length = countCreates ops
    rw [runOps_length]
    exact Nat.zero_add _

lemma mem_replaceFirst {l : List Ticket} {i : Nat} {t' u : Ticket}
    (hu : u ∈ replaceFirst l i t') : u ∈ l ∨ u = t' := by
  induction l with
  | nil => cases hu
  | cons v rest ih =>
      by_cases hv : (v.id == i) = true
      · rw [show replaceFirst (v :: rest) i t' = t' :: rest from by
          simp [replaceFirst, hv]] at hu
        rcases List.mem_cons.mp hu with h1 | h1
        · exact Or.inr h1
        · exact Or.inl (List.mem_cons_of_mem _ h1)
      · rw [show replaceFirst (v :: rest) i t' = v :: replaceFirst rest i t'
          from by simp [replaceFirst, hv]] at hu
        rcases List.mem_cons.mp hu with h1 | h1
        · exact Or.inl (h1 ▸ List.mem_cons_self _ _)
        · rcases ih h1 with h2 | h2
          · exact Or.inl (List.mem_cons_of_mem _ h2)
          · exact Or.inr h2

lemma inv_create (s : TicketStore) (a : CreateArgs)
    (h : ∀ t ∈ s.tickets_, TicketInv t) :
    ∀ t ∈ (applyCreate s a).1.tickets_, TicketInv t := by
  intro t ht
  have ht' : t ∈ s.tickets_ ++ [(applyCreate s a).2] := ht
  rcases List.mem_append.mp ht' with h1 | h1
  · exact h t h1
  · rw [List.mem_singleton.mp h1]
    exact ⟨by simp [applyCreate, TicketStore.create_ticket],
      by simp [applyCreate, TicketStore.create_ticket]⟩

lemma inv_resolve (s : TicketStore) (i : Nat) (text : String) (now : DateTime)
    (h : ∀ t ∈ s.tickets_, TicketInv t) :
    ∀ t ∈ (s.resolve_ticket i text now).1.tickets_, TicketInv t := by
  rcases hget : s.get_ticket i with _ | t0
  · intro t ht
    apply h
    simpa [TicketStore.resolve_ticket, hget] using ht
  · rcases hres : t0.resolve text now with e | t'
    · intro t ht
      apply h
      simpa [TicketStore.resolve_ticket, hget, hres] using ht
    · have ht' : TicketInv t' := by
        unfold Ticket.resolve at hres
        by_cases hb : text.strip.isEmpty = true
        · rw [if_pos hb] at hres
          cases hres
        · rw [if_neg hb] at hres
          cases hres
          exact ⟨by simp, by simp⟩
      intro t ht
      have hmem : t ∈ replaceFirst s.tickets_ i t' := by
        simpa [TicketStore.resolve_ticket, hget, hres] using ht
      rcases mem_replaceFirst hmem with h1 | h1
      · exact h t h1
      · exact h1 ▸ ht'

lemma runOps_inv (ops : List Op) :
    ∀ s : TicketStore, (∀ t ∈ s.tickets_, TicketInv t) →
      ∀ t ∈ (runOps s ops).tickets_, TicketInv t := by
  induction ops with
  | nil => exact fun s h => h
  | cons o rest ih =>
      intro s h
      show ∀ t ∈ (runOps (applyOp s o) rest).tickets_, TicketInv t
      apply ih
      cases o with
      | create a => exact inv_create s a h
      | resolveOp i text now => exact inv_resolve s i text now h

/-- C9: in every store reachable from the empty store by `create_ticket`
and `resolve_ticket` calls (read-only calls do not change the store),
every ticket has `resolution` and `resolved_at` both absent or both
present, and they are present exactly when its status is Resolved. -/
theorem c9_ticket_state_invariant (ops : List Op) :
    ∀ t ∈ (runOps (TicketStore.init none) ops).tickets_,
      TicketInv t ∧ (t.resolution.isSome ↔ t.resolved_at.isSome) := by
  intro t ht
  have hinv : TicketInv t :=
    runOps_inv ops (TicketStore.init none) (by intro t ht0; cases ht0) t ht
  exact ⟨hinv, hinv.1.trans hinv.2.symm⟩

/-- Witness for C9: the ticket produced by one create and one resolve
satisfies the invariant. -/
theorem c9_ticket_state_invariant_witness :
    TicketInv (Ticket.mk 1 "Alice" "alice@example.com" "Laptop issue"
      "Wont start" Priority.HIGH Status.RESOLVED sampleNow
      (some "Done") (some sampleNow)) :=
  (c9_ticket_state_invariant
    [Op.create sampleArgs, Op.resolveOp 1 "Done" sampleNow]
    (Ticket.mk 1 "Alice" "alice@example.com" "Laptop issue"
      "Wont start" Priority.HIGH Status.RESOLVED sampleNow
      (some "Done") (some sampleNow))
    (by decide)).1

/-- C10: none of the read-only operations — `get_ticket`,
`filter_tickets`, `stats`, the `tickets` property — changes the store
(their method bodies assign to no attribute), and the `tickets`
property returns the full current sequence in insertion order. -/
theorem c10_query_purity :
    (∀ (s : TicketStore) (q : Query), (s.runQuery q).1 = s)
    ∧ (∀ s : TicketStore,
        s.tickets = s.tickets_
        ∧ s.runQuery Query.ticketsQ = (s, QueryResult.many s.tickets_)) := by
  refine ⟨fun s q => ?_, fun s => ⟨rfl, rfl⟩⟩
  cases q <;> rfl
